import Mathlib

/-!
Verification development for the One-Call signaling and access planes.

The definitions below are a shallow embedding of the TypeScript sources:

* `apps/signaling/src/room-manager.ts` — the in-memory presence registry
  (`RoomManager`): `registerPeer`, `joinRoom`, `leaveRoom`, `removePeer`,
  `getRoomPeers`, `getRoomUserIds`.
* `apps/signaling/src/server.ts` — the per-connection message handlers
  (`handleJoin`, `handleOffer`, `handleAnswer`, `handleIce`, `handleLeave`,
  `handleMessage`) and the outgoing frame shapes.
* `apps/signaling/src/types.ts` — the wire protocol types and the
  `SignalingErrorCodes` table.
* `apps/api/src/modules/token/token.service.ts` — `createToken`,
  `verifyToken`, `parseExpiresIn`.
* `apps/api/src/modules/room` — `createRoom` and its Fastify schema.

JavaScript `Map` objects are embedded as functions `String → Option _`
updated pointwise; a JavaScript `Set` (which preserves insertion order)
is embedded as a duplicate-free `List String` with append-at-end insert.
JavaScript truthiness tests on nullable strings (`!peer.userId`) are made
explicit via `jsTruthy`: both `null` and the empty string are falsy.
-/

/-- Pointwise update of an embedded JavaScript `Map`. -/
def upd {α : Type} (m : String → Option α) (k : String) (v : Option α) :
    String → Option α :=
  fun k' => if k' = k then v else m k'

/-- JavaScript truthiness of a nullable string: `null` and `""` are falsy. -/
def jsTruthy : Option String → Bool
  | none => false
  | some s => s ≠ ""

/-- JavaScript `String.prototype.trim()`: strip leading and trailing
whitespace.  (Embedded over the character list so that it computes by
structural recursion.) -/
def jsTrim (s : String) : String :=
  String.mk
    (((s.toList.dropWhile Char.isWhitespace).reverse.dropWhile
        Char.isWhitespace).reverse)

/-- `Set.add`: JavaScript sets keep insertion order and ignore duplicates. -/
def setAdd (l : List String) (s : String) : List String :=
  if s ∈ l then l else l ++ [s]

/-- A connected peer (`Peer` in `apps/signaling/src/types.ts`). -/
structure Peer where
  socketId : String
  roomId : Option String
  userId : Option String
  appId : Option String
deriving Repr, DecidableEq

/-- A signaling room (`Room` in `apps/signaling/src/types.ts`).
`peers` embeds the `Set<string>` of socket ids. -/
structure SigRoom where
  id : String
  appId : String
  peers : List String
  maxParticipants : Nat
deriving Repr, DecidableEq

/-- `DEFAULT_MAX_PARTICIPANTS` in `room-manager.ts`. -/
def DEFAULT_MAX_PARTICIPANTS : Nat := 2

/-- The `RoomManager` state: the `rooms` and `peers` maps. -/
structure RMState where
  rooms : String → Option SigRoom
  peers : String → Option Peer

/-- The room manager with no rooms and no peers. -/
def emptyRM : RMState := ⟨fun _ => none, fun _ => none⟩

/-- `RoomManager.registerPeer`: unconditionally `set`s a fresh unadmitted
peer record and returns it. -/
def registerPeer (st : RMState) (socketId : String) : Peer × RMState :=
  let peer : Peer := ⟨socketId, none, none, none⟩
  (peer, { st with peers := upd st.peers socketId (some peer) })

/-- `RoomManager.getPeer`. -/
def getPeer (st : RMState) (socketId : String) : Option Peer :=
  st.peers socketId

/-- Result of `RoomManager.joinRoom`. -/
inductive JoinResult where
  | success
  | failure (error : String) (code : String)
deriving Repr, DecidableEq

/-- `RoomManager.joinRoom`.  The source looks the peer up, rejects a second
join, gets or creates the room (inserting a fresh room into the map at
once), then runs the app-ownership check and the capacity check before
mutating.  The get-or-create `match` is expanded into its two branches;
both branches run the same two checks as the source. -/
def joinRoom (st : RMState) (socketId roomId userId appId : String) :
    JoinResult × RMState :=
  match st.peers socketId with
  | none => (.failure "Peer not found" "INTERNAL_ERROR", st)
  | some peer =>
    match peer.roomId with
    | some _ => (.failure "Already in a room" "ALREADY_IN_ROOM", st)
    | none =>
      match st.rooms roomId with
      | some room =>
        if 0 < room.peers.length ∧ room.appId ≠ appId then
          (.failure "Room belongs to different app" "INVALID_TOKEN", st)
        else if room.maxParticipants ≤ room.peers.length then
          (.failure "Room is full" "ROOM_FULL", st)
        else
          (.success,
            { rooms := upd st.rooms roomId
                (some { room with peers := setAdd room.peers socketId }),
              peers := upd st.peers socketId
                (some { peer with roomId := some roomId,
                                  userId := some userId,
                                  appId := some appId }) })
      | none =>
        let room : SigRoom :=
          { id := roomId, appId := appId, peers := [],
            maxParticipants := DEFAULT_MAX_PARTICIPANTS }
        if 0 < room.peers.length ∧ room.appId ≠ appId then
          (.failure "Room belongs to different app" "INVALID_TOKEN",
            { st with rooms := upd st.rooms roomId (some room) })
        else if room.maxParticipants ≤ room.peers.length then
          (.failure "Room is full" "ROOM_FULL",
            { st with rooms := upd st.rooms roomId (some room) })
        else
          (.success,
            { rooms := upd (upd st.rooms roomId (some room)) roomId
                (some { room with peers := setAdd room.peers socketId }),
              peers := upd st.peers socketId
                (some { peer with roomId := some roomId,
                                  userId := some userId,
                                  appId := some appId }) })

/-- `RoomManager.leaveRoom`.  The source guards with `!peer || !peer.roomId`
(JavaScript truthiness: a `roomId` of `""` also bails out), returns `null`
when the room is missing *without* resetting the peer, removes the socket
from the room set, deletes an emptied room, and resets the peer fields. -/
def leaveRoom (st : RMState) (socketId : String) :
    Option (String × List String) × RMState :=
  match st.peers socketId with
  | none => (none, st)
  | some peer =>
    match peer.roomId with
    | none => (none, st)
    | some roomId =>
      if roomId = "" then (none, st)
      else
        match st.rooms roomId with
        | none => (none, st)
        | some room =>
          let newPeers := room.peers.erase socketId
          let rooms' :=
            if newPeers.length = 0 then upd st.rooms roomId none
            else upd st.rooms roomId (some { room with peers := newPeers })
          (some (roomId, newPeers),
            { rooms := rooms',
              peers := upd st.peers socketId
                (some { peer with roomId := none, userId := none,
                                  appId := none }) })

/-- `RoomManager.removePeer`: `leaveRoom` followed by deletion of the peer
record; the result is reported only when the leave succeeded *and* the
stored `userId` was truthy. -/
def removePeer (st : RMState) (socketId : String) :
    Option (String × List String × String) × RMState :=
  match st.peers socketId with
  | none => (none, st)
  | some peer =>
    let res := leaveRoom st socketId
    let st2 := { res.2 with peers := upd res.2.peers socketId none }
    let result :=
      match res.1, peer.userId with
      | some (roomId, remaining), some u =>
        if u = "" then none else some (roomId, remaining, u)
      | _, _ => none
    (result, st2)

/-- `RoomManager.getRoomPeers`: all *other* socket ids in the room of the caller (`[]` when unregistered, room-less, or the room is missing). -/
def getRoomPeers (st : RMState) (socketId : String) : List String :=
  match st.peers socketId with
  | none => []
  | some peer =>
    match peer.roomId with
    | none => []
    | some roomId =>
      if roomId = "" then []
      else
        match st.rooms roomId with
        | none => []
        | some room => room.peers.filter (fun id => id ≠ socketId)

/-- `RoomManager.getRoomUserIds`: the truthy user ids of the members of a room,
in member order (`peer?.userId` skips both `null` and `""`). -/
def getRoomUserIds (st : RMState) (roomId : String) : List String :=
  match st.rooms roomId with
  | none => []
  | some room =>
    room.peers.filterMap (fun sid =>
      match st.peers sid with
      | none => none
      | some p =>
        match p.userId with
        | none => none
        | some u => if u = "" then none else some u)

/-- `RoomManager.getUserId`. -/
def getUserId (st : RMState) (socketId : String) : Option String :=
  (st.peers socketId).bind (fun p => p.userId)

/-!
## Access plane: token service and room service

`token.service.ts` signs and verifies JSON Web Tokens with `jsonwebtoken`
under the shared secret `config.jwt.secret`.  The library is embedded
symbolically: a token is its payload together with the key it was signed
with; verification succeeds exactly when the key of the verifier equals the
signing key and the current time is strictly before `exp`
(`jsonwebtoken` raises `TokenExpiredError` when `now >= exp`).
-/

/-- The signaling/API token payload (`TokenClaims` plus `iat`/`exp`).
Fields are plain strings: the verifier performs no shape validation, so
unknown roles and empty user ids are representable. -/
structure JwtPayload where
  jti : String
  appId : String
  roomId : String
  userId : String
  role : String
  iat : Nat
  exp : Nat
deriving Repr, DecidableEq

/-- A signed compact token: payload plus the key that signed it. -/
structure Jwt where
  payload : JwtPayload
  key : String
deriving Repr, DecidableEq

inductive JwtError where
  | expired
  | invalid
deriving Repr, DecidableEq

/-- `jwt.verify`: signature check, then expiry check (`now ≥ exp` is
expired), then the decoded payload — no claim-shape checks. -/
def jwtVerify (t : Jwt) (secret : String) (now : Nat) :
    Except JwtError JwtPayload :=
  if t.key ≠ secret then .error .invalid
  else if t.payload.exp ≤ now then .error .expired
  else .ok t.payload

/-- `TokenClaims` as returned by `verifyToken` (no `iat`/`exp`). -/
structure TokenClaims where
  jti : String
  appId : String
  roomId : String
  userId : String
  role : String
deriving Repr, DecidableEq

/-- The typed API errors of `shared/errors.ts` that the token and room
services throw. -/
inductive ApiError where
  | validation (message : String)
  | notFound (resource id : String)
  | forbidden (message : String)
deriving Repr, DecidableEq

/-- JavaScript `a || b` on a nullable string: `null` and `""` fall back
to the default. -/
def jsOrDefault (v : Option String) (d : String) : String :=
  match v with
  | none => d
  | some s => if s = "" then d else s

/-- `VALID_ROLES` in `token.service.ts`. -/
def VALID_ROLES : List String := ["host", "participant", "viewer"]

/-- Digit-string to number, as `parseInt(_, 10)` on a match of `\d+`. -/
def digitsToNat (cs : List Char) : Nat :=
  cs.foldl (fun acc c => acc * 10 + (c.toNat - 48)) 0

/-- `parseExpiresIn` in `token.service.ts`: the input must match
`^(\d+)([smhd])$`; the numeric part is scaled by the unit. -/
def parseExpiresIn (expiresIn : String) : Except ApiError Nat :=
  let cs := expiresIn.toList
  let digits := cs.dropLast
  match cs.getLast? with
  | none =>
    .error (.validation
      "Invalid expiresIn format. Use format like \"1h\", \"30m\", \"7d\"")
  | some u =>
    if digits ≠ [] ∧ digits.all Char.isDigit ∧ u ∈ ['s', 'm', 'h', 'd'] then
      let value := digitsToNat digits
      if u = 's' then .ok value
      else if u = 'm' then .ok (value * 60)
      else if u = 'h' then .ok (value * 60 * 60)
      else .ok (value * 60 * 60 * 24)
    else
      .error (.validation
        "Invalid expiresIn format. Use format like \"1h\", \"30m\", \"7d\"")

/-- A REST-created room row (`Room` in `room.types.ts` / Prisma). -/
structure ApiRoom where
  id : String
  appId : String
  name : String
  maxParticipants : Int
deriving Repr, DecidableEq

/-- `CreateTokenInput` in `token.types.ts`; `role` is kept as a plain
string so the runtime membership check against `VALID_ROLES` is real. -/
structure CreateTokenInput where
  userId : String
  role : String
  expiresIn : Option String
deriving Repr, DecidableEq

/-- `createToken` in `token.service.ts`.  The Prisma lookup
`getRoomInternal` is abstracted as the function `db`; the fresh `jti`
and the clock are passed in.  Returns the signed token and the `exp`
timestamp (the source renders `expiresAt` as the ISO form of `exp`). -/
def createToken (appId roomId : String) (input : CreateTokenInput)
    (db : String → Option ApiRoom) (secret : String) (now : Nat)
    (jti : String) : Except ApiError (Jwt × Nat) :=
  if appId = "" then .error (.validation "App ID is required")
  else if roomId = "" then .error (.validation "Room ID is required")
  else if jsTrim input.userId = "" then
    .error (.validation "User ID is required")
  else if input.role ∉ VALID_ROLES then
    .error (.validation "Role must be one of: host, participant, viewer")
  else
    match db roomId with
    | none => .error (.notFound "Room" roomId)
    | some room =>
      if room.appId ≠ appId then
        .error (.forbidden "Room does not belong to this app")
      else
        match parseExpiresIn (jsOrDefault input.expiresIn "1h") with
        | .error e => .error e
        | .ok seconds =>
          let exp := now + seconds
          let claims : JwtPayload :=
            { jti := jti, appId := appId, roomId := roomId,
              userId := jsTrim input.userId, role := input.role,
              iat := now, exp := exp }
          .ok (⟨claims, secret⟩, exp)

/-- `verifyToken` in `token.service.ts`: decode via `jwt.verify` and
return the five claim fields as-is; expiry and bad signatures map to
`ValidationError`s.  No claim-shape validation is performed. -/
def verifyToken (t : Jwt) (secret : String) (now : Nat) :
    Except ApiError TokenClaims :=
  match jwtVerify t secret now with
  | .ok d => .ok ⟨d.jti, d.appId, d.roomId, d.userId, d.role⟩
  | .error .expired => .error (.validation "Token has expired")
  | .error .invalid => .error (.validation "Invalid token")

/-- `CreateRoomInput` in `room.types.ts`. -/
structure CreateRoomInput where
  name : String
  maxParticipants : Option Int
deriving Repr, DecidableEq

/-- A created room as returned by `createRoom` (ISO date elided). -/
structure CreateRoomResponse where
  id : String
  appId : String
  name : String
  maxParticipants : Int
deriving Repr, DecidableEq

/-- `createRoom` in the room service: name and app checks, default
capacity 2, REST capacity bounds 1..1000, then the Prisma insert
(abstracted: the generated row id is passed in). -/
def createRoom (appId : String) (input : CreateRoomInput)
    (genId : String) : Except ApiError CreateRoomResponse :=
  if jsTrim input.name = "" then .error (.validation "Room name is required")
  else if appId = "" then .error (.validation "App ID is required")
  else
    let maxParticipants := input.maxParticipants.getD 2
    if maxParticipants < 1 ∨ maxParticipants > 1000 then
      .error (.validation "Max participants must be between 1 and 1000")
    else
      .ok ⟨genId, appId, jsTrim input.name, maxParticipants⟩

/-- `createTokenSchema` (token JSON schema): `userId` is a string with
`minLength` 1 and `maxLength` 255, `role` is one of the three enum
values, and `expiresIn`, when present, matches the same
digits-plus-unit pattern as `parseExpiresIn`. -/
def validCreateTokenBody (input : CreateTokenInput) : Bool :=
  1 ≤ input.userId.length && input.userId.length ≤ 255 &&
  (input.role ∈ VALID_ROLES : Bool) &&
  (match input.expiresIn with
   | none => true
   | some e =>
     let cs := e.toList
     cs.dropLast ≠ [] && cs.dropLast.all Char.isDigit &&
       (match cs.getLast? with
        | some u => u ∈ ['s', 'm', 'h', 'd']
        | none => false))

/-- Modelled from the spec: the token-issuance route handler
(`token.routes.ts` is absent from the source tree — only its schema
`createTokenSchema` and the service are present).  Per the spec, the
route `POST /rooms/:roomId/token` validates the body against the schema
and only then calls `createToken`. -/
def issueGrantRequest (appId roomId : String) (input : CreateTokenInput)
    (db : String → Option ApiRoom) (secret : String) (now : Nat)
    (jti : String) : Except ApiError (Jwt × Nat) :=
  if validCreateTokenBody input then
    createToken appId roomId input db secret now jti
  else
    .error (.validation "body must match schema")

/-!
## Signaling endpoint: the wire protocol and the message handlers

`server.ts` parses a frame, dispatches on its `type`, and reacts by
sending outgoing frames.  A handler is embedded as a function from the
registry state to the new state plus a list of transport actions.  The
`Action` type has a `close` constructor so that "the transport is
closed" is expressible; the handlers of the source never emit it.
-/

/-- An SDP session description (`RTCSessionDescriptionInit`); the server
treats it as opaque. -/
structure Sdp where
  sdpType : String
  sdp : String
deriving Repr, DecidableEq

/-- An ICE candidate (`RTCIceCandidateInit`); opaque to the server. -/
structure IceCandidate where
  candidate : Option String
  sdpMid : Option String
  sdpMLineIndex : Option Int
deriving Repr, DecidableEq

/-- Incoming client frames (`IncomingMessage` in `types.ts`).  `invalid`
stands for a frame that fails JSON parsing or `isValidIncomingMessage`. -/
inductive IncomingMessage where
  | join (roomId : String) (token : Jwt)
  | offer (sdp : Sdp)
  | answer (sdp : Sdp)
  | ice (candidate : IceCandidate)
  | leave
  | invalid
deriving Repr, DecidableEq

/-- Outgoing server frames (`OutgoingMessage` in `types.ts`). -/
inductive OutgoingMessage where
  | joined (roomId userId : String) (peers : List String)
  | peerJoined (userId : String) (isInitiator : Bool)
  | peerLeft (userId : String)
  | offer (sdp : Sdp) (fromUserId : String)
  | answer (sdp : Sdp) (fromUserId : String)
  | ice (candidate : IceCandidate) (fromUserId : String)
  | error (code message : String)
deriving Repr, DecidableEq

/-- A transport action: send a frame to a socket, or close a socket. -/
inductive SigAction where
  | send (dest : String) (msg : OutgoingMessage)
  | close (dest : String)
deriving Repr, DecidableEq

/-- The `SignalingErrorCodes` table in `types.ts`. -/
def SignalingErrorCodes : List String :=
  ["INVALID_MESSAGE", "INVALID_TOKEN", "TOKEN_EXPIRED", "ROOM_FULL",
   "NOT_IN_ROOM", "ALREADY_IN_ROOM", "INTERNAL_ERROR"]

/-- `handleJoin` in `server.ts`: verify the token, compare the claimed
`roomId` with the requested one, snapshot the existing user ids, run
`joinRoom`, and on success send `joined` to the new peer followed by
`peer-joined` (with `isInitiator` true) to every other member. -/
def handleJoin (st : RMState) (socketId roomId : String) (token : Jwt)
    (jwtSecret : String) (now : Nat) : RMState × List SigAction :=
  match jwtVerify token jwtSecret now with
  | .error .expired =>
    (st, [.send socketId (.error "TOKEN_EXPIRED" "Token has expired")])
  | .error .invalid =>
    (st, [.send socketId (.error "INVALID_TOKEN" "Invalid token")])
  | .ok claims =>
    if claims.roomId ≠ roomId then
      (st, [.send socketId
        (.error "INVALID_TOKEN" "Token not valid for this room")])
    else
      let existingPeers := getRoomUserIds st roomId
      match joinRoom st socketId roomId claims.userId claims.appId with
      | (.failure err code, st1) =>
        (st1, [.send socketId (.error code err)])
      | (.success, st1) =>
        (st1,
          .send socketId (.joined roomId claims.userId existingPeers) ::
            (getRoomPeers st1 socketId).map
              (fun pid => .send pid (.peerJoined claims.userId true)))

/-- `handleOffer`: `NOT_IN_ROOM` unless both `roomId` and `userId` of the
peer are truthy; otherwise relay the SDP verbatim to every other member,
stamped with the user id of the sender. -/
def handleOffer (st : RMState) (socketId : String) (sdp : Sdp) :
    RMState × List SigAction :=
  match st.peers socketId with
  | some peer =>
    if jsTruthy peer.roomId ∧ jsTruthy peer.userId then
      (st, (getRoomPeers st socketId).map
        (fun pid => .send pid (.offer sdp (peer.userId.getD ""))))
    else
      (st, [.send socketId (.error "NOT_IN_ROOM" "Must join a room first")])
  | none =>
    (st, [.send socketId (.error "NOT_IN_ROOM" "Must join a room first")])

/-- `handleAnswer`: same shape as `handleOffer`. -/
def handleAnswer (st : RMState) (socketId : String) (sdp : Sdp) :
    RMState × List SigAction :=
  match st.peers socketId with
  | some peer =>
    if jsTruthy peer.roomId ∧ jsTruthy peer.userId then
      (st, (getRoomPeers st socketId).map
        (fun pid => .send pid (.answer sdp (peer.userId.getD ""))))
    else
      (st, [.send socketId (.error "NOT_IN_ROOM" "Must join a room first")])
  | none =>
    (st, [.send socketId (.error "NOT_IN_ROOM" "Must join a room first")])

/-- `handleIce`: same shape as `handleOffer`, for ICE candidates. -/
def handleIce (st : RMState) (socketId : String) (candidate : IceCandidate) :
    RMState × List SigAction :=
  match st.peers socketId with
  | some peer =>
    if jsTruthy peer.roomId ∧ jsTruthy peer.userId then
      (st, (getRoomPeers st socketId).map
        (fun pid => .send pid (.ice candidate (peer.userId.getD ""))))
    else
      (st, [.send socketId (.error "NOT_IN_ROOM" "Must join a room first")])
  | none =>
    (st, [.send socketId (.error "NOT_IN_ROOM" "Must join a room first")])

/-- `handleLeave`: a no-op unless the peer has truthy `roomId` and
`userId`; otherwise leave the room and send `peer-left` to the
remaining members. -/
def handleLeave (st : RMState) (socketId : String) : RMState × List SigAction :=
  match st.peers socketId with
  | none => (st, [])
  | some peer =>
    if jsTruthy peer.roomId ∧ jsTruthy peer.userId then
      let uid := peer.userId.getD ""
      match leaveRoom st socketId with
      | (some (_, remaining), st1) =>
        (st1, remaining.map (fun pid => .send pid (.peerLeft uid)))
      | (none, st1) => (st1, [])
    else (st, [])

/-- `handleDisconnect`: `removePeer`, then `peer-left` to the remaining
members when the peer had been admitted. -/
def handleDisconnect (st : RMState) (socketId : String) :
    RMState × List SigAction :=
  match removePeer st socketId with
  | (some (_, remaining, uid), st1) =>
    (st1, remaining.map (fun pid => .send pid (.peerLeft uid)))
  | (none, st1) => (st1, [])

/-- `handleMessage`: parse/validate (the failure of either is the
`invalid` constructor, answered with an `INVALID_MESSAGE` error frame)
and dispatch on the frame type. -/
def handleMessage (st : RMState) (socketId : String) (msg : IncomingMessage)
    (jwtSecret : String) (now : Nat) : RMState × List SigAction :=
  match msg with
  | .invalid =>
    (st, [.send socketId (.error "INVALID_MESSAGE" "Invalid message format")])
  | .join roomId token => handleJoin st socketId roomId token jwtSecret now
  | .offer sdp => handleOffer st socketId sdp
  | .answer sdp => handleAnswer st socketId sdp
  | .ice candidate => handleIce st socketId candidate
  | .leave => handleLeave st socketId

/-!
## The presence-registry invariants

`RMInv` states the invariants the specification lists for the registry:
room entries are nonempty duplicate-free member sets within capacity,
the peer record of every member points back at the room (reverse → forward),
and the room of every admitted peer contains it (forward → reverse).
-/

/-- The registry invariants. -/
def RMInv (st : RMState) : Prop :=
  (∀ rid room, st.rooms rid = some room →
      room.peers ≠ [] ∧ room.peers.Nodup ∧
      room.peers.length ≤ room.maxParticipants ∧
      ∀ s, s ∈ room.peers → ∃ p, st.peers s = some p ∧ p.roomId = some rid)
  ∧ ∀ s p rid, st.peers s = some p → p.roomId = some rid →
      ∃ room, st.rooms rid = some room ∧ s ∈ room.peers

/-- Every room entry has the MVP capacity 2. -/
def AllMax2 (st : RMState) : Prop :=
  ∀ rid room, st.rooms rid = some room → room.maxParticipants = 2

lemma upd_self {α : Type} (m : String → Option α) (k : String)
    (v : Option α) : upd m k v k = v := by
  simp [upd]

lemma upd_ne {α : Type} (m : String → Option α) (k : String)
    (v : Option α) {k' : String} (h : k' ≠ k) : upd m k v k' = m k' := by
  simp [upd, h]

lemma inv_empty : RMInv emptyRM := by
  constructor
  · intro rid room h
    simp [emptyRM] at h
  · intro s p rid h _
    simp [emptyRM] at h

lemma inv_registerPeer (st : RMState) (h : RMInv st) (s : String)
    (hf : st.peers s = none) : RMInv (registerPeer st s).2 := by
  obtain ⟨hR, hP⟩ := h
  constructor
  · intro rid room hr
    obtain ⟨h1, h2, h3, h4⟩ := hR rid room hr
    refine ⟨h1, h2, h3, ?_⟩
    intro m hm
    obtain ⟨p, hp, hpr⟩ := h4 m hm
    have hms : m ≠ s := by
      rintro rfl
      rw [hf] at hp
      exact Option.noConfusion hp
    exact ⟨p, by simpa [registerPeer, upd, hms] using hp, hpr⟩
  · intro s' p rid hp hr
    by_cases hss : s' = s
    · subst hss
      have hpp : (⟨s', none, none, none⟩ : Peer) = p := by
        simpa [registerPeer, upd] using hp
      rw [← hpp] at hr
      simp at hr
    · have hp' : st.peers s' = some p := by
        simpa [registerPeer, upd, hss] using hp
      exact hP s' p rid hp' hr

lemma setAdd_not_mem {l : List String} {s : String} (h : s ∉ l) :
    setAdd l s = l ++ [s] := by
  simp [setAdd, h]

lemma upd_upd {α : Type} (m : String → Option α) (k : String)
    (v w : Option α) : upd (upd m k v) k w = upd m k w := by
  funext k'
  by_cases h : k' = k <;> simp [upd, h]

/-- Core step lemma: admitting a not-yet-admitted peer into a room whose
previous member list is `oldPeers` preserves the registry invariants. -/
lemma inv_upd_join (st : RMState) (h : RMInv st) (s rid : String)
    (peer : Peer) (oldPeers : List String) (newRoom : SigRoom)
    (peer2 : Peer)
    (hpeer : st.peers s = some peer) (hprid : peer.roomId = none)
    (hpeers : newRoom.peers = oldPeers ++ [s])
    (hnd : oldPeers.Nodup) (hsno : s ∉ oldPeers)
    (hmax : oldPeers.length < newRoom.maxParticipants)
    (hmem : ∀ m ∈ oldPeers, ∃ p, st.peers m = some p ∧ p.roomId = some rid)
    (hback : ∀ s' p', st.peers s' = some p' → p'.roomId = some rid →
      s' ∈ oldPeers)
    (hp2 : peer2.roomId = some rid) :
    RMInv ⟨upd st.rooms rid (some newRoom), upd st.peers s (some peer2)⟩ := by
  obtain ⟨hR, hP⟩ := h
  constructor
  · intro rid' room' hr'
    by_cases hrr : rid' = rid
    · subst hrr
      have hr2 : upd st.rooms rid' (some newRoom) rid' = some room' := hr'
      rw [upd_self] at hr2
      injection hr2 with hr2
      subst hr2
      refine ⟨?_, ?_, ?_, ?_⟩
      · rw [hpeers]; simp
      · rw [hpeers]
        exact hnd.append (List.nodup_singleton s) (by simpa using hsno)
      · rw [hpeers]
        simp only [List.length_append, List.length_singleton]
        omega
      · intro m hm
        rw [hpeers] at hm
        rcases List.mem_append.mp hm with hm' | hm'
        · obtain ⟨p, hp, hpr⟩ := hmem m hm'
          have hms : m ≠ s := fun e => hsno (e ▸ hm')
          refine ⟨p, ?_, hpr⟩
          show upd st.peers s (some peer2) m = some p
          rw [upd_ne _ _ _ hms]; exact hp
        · have hmseq : m = s := by simpa using hm'
          subst hmseq
          refine ⟨peer2, ?_, hp2⟩
          exact upd_self ..
    · have hr2 : st.rooms rid' = some room' := by
        have hx : upd st.rooms rid (some newRoom) rid' = some room' := hr'
        rwa [upd_ne _ _ _ hrr] at hx
      obtain ⟨h1, h2, h3, h4⟩ := hR rid' room' hr2
      refine ⟨h1, h2, h3, ?_⟩
      intro m hm
      obtain ⟨p, hp, hpr⟩ := h4 m hm
      have hms : m ≠ s := by
        rintro rfl
        rw [hpeer] at hp
        injection hp with e
        rw [← e, hprid] at hpr
        exact Option.noConfusion hpr
      refine ⟨p, ?_, hpr⟩
      show upd st.peers s (some peer2) m = some p
      rw [upd_ne _ _ _ hms]; exact hp
  · intro s' p' rid' hp' hr'
    have hp2' : upd st.peers s (some peer2) s' = some p' := hp'
    by_cases hss : s' = s
    · subst hss
      rw [upd_self] at hp2'
      injection hp2' with e
      rw [← e, hp2] at hr'
      injection hr' with e2
      subst e2
      refine ⟨newRoom, upd_self .., ?_⟩
      rw [hpeers]; simp
    · rw [upd_ne _ _ _ hss] at hp2'
      by_cases hrr : rid' = rid
      · subst hrr
        have hmem' : s' ∈ oldPeers := hback s' p' hp2' hr'
        refine ⟨newRoom, upd_self .., ?_⟩
        rw [hpeers]
        exact List.mem_append.mpr (Or.inl hmem')
      · obtain ⟨room'', hroom'', hmem''⟩ := hP s' p' rid' hp2' hr'
        refine ⟨room'', ?_, hmem''⟩
        show upd st.rooms rid (some newRoom) rid' = some room''
        rw [upd_ne _ _ _ hrr]; exact hroom''

lemma inv_joinRoom (st : RMState) (h : RMInv st) (s rid uid aid : String) :
    RMInv (joinRoom st s rid uid aid).2 := by
  cases hpeer : st.peers s with
  | none => simpa only [joinRoom, hpeer] using h
  | some peer =>
    cases hprid : peer.roomId with
    | some r0 => simpa only [joinRoom, hpeer, hprid] using h
    | none =>
      cases hroom : st.rooms rid with
      | some room =>
        have hsnotin : s ∉ room.peers := by
          intro hmem
          obtain ⟨p, hp, hpr⟩ := (h.1 rid room hroom).2.2.2 s hmem
          rw [hpeer] at hp
          injection hp with hp
          rw [← hp, hprid] at hpr
          exact Option.noConfusion hpr
        by_cases hApp : 0 < room.peers.length ∧ room.appId ≠ aid
        · simpa only [joinRoom, hpeer, hprid, hroom, if_pos hApp] using h
        · by_cases hFull : room.maxParticipants ≤ room.peers.length
          · simpa only [joinRoom, hpeer, hprid, hroom, if_neg hApp,
              if_pos hFull] using h
          · have hst : (joinRoom st s rid uid aid).2 =
                ⟨upd st.rooms rid
                   (some { room with peers := setAdd room.peers s }),
                 upd st.peers s
                   (some { peer with roomId := some rid, userId := some uid,
                                     appId := some aid })⟩ := by
              simp only [joinRoom, hpeer, hprid, hroom, if_neg hApp,
                if_neg hFull]
            rw [hst]
            refine inv_upd_join st h s rid peer room.peers _ _ hpeer hprid
              (setAdd_not_mem hsnotin) (h.1 rid room hroom).2.1 hsnotin
              (Nat.not_le.mp hFull) ((h.1 rid room hroom).2.2.2) ?_ rfl
            intro s' p' hp' hr'
            obtain ⟨room'', hroom'', hmem''⟩ := h.2 s' p' rid hp' hr'
            rw [hroom] at hroom''
            injection hroom'' with e
            rw [e]; exact hmem''
      | none =>
        have hst : (joinRoom st s rid uid aid).2 =
            ⟨upd st.rooms rid
               (some { id := rid, appId := aid, peers := [s],
                       maxParticipants := DEFAULT_MAX_PARTICIPANTS }),
             upd st.peers s
               (some { peer with roomId := some rid, userId := some uid,
                                 appId := some aid })⟩ := by
          simp only [joinRoom, hpeer, hprid, hroom]
          norm_num [DEFAULT_MAX_PARTICIPANTS, setAdd, upd_upd]
        rw [hst]
        refine inv_upd_join st h s rid peer [] _ _ hpeer hprid rfl
          List.nodup_nil (by simp) (by simp [DEFAULT_MAX_PARTICIPANTS])
          (by simp) ?_ rfl
        intro s' p' hp' hr'
        obtain ⟨room'', hroom'', _⟩ := h.2 s' p' rid hp' hr'
        rw [hroom] at hroom''
        exact Option.noConfusion hroom''

lemma inv_leaveRoom (st : RMState) (h : RMInv st) (s : String) :
    RMInv (leaveRoom st s).2 := by
  cases hpeer : st.peers s with
  | none => simpa only [leaveRoom, hpeer] using h
  | some peer =>
    cases hprid : peer.roomId with
    | none => simpa only [leaveRoom, hpeer, hprid] using h
    | some rid =>
      by_cases hrid0 : rid = ""
      · simpa only [leaveRoom, hpeer, hprid, if_pos hrid0] using h
      · cases hroom : st.rooms rid with
        | none =>
          simpa only [leaveRoom, hpeer, hprid, if_neg hrid0, hroom] using h
        | some room =>
          obtain ⟨hne, hnd, hlen, hmem⟩ := h.1 rid room hroom
          by_cases hemp : (room.peers.erase s).length = 0
          · have hst : (leaveRoom st s).2 =
                ⟨upd st.rooms rid none,
                 upd st.peers s
                   (some { peer with roomId := none, userId := none,
                                     appId := none })⟩ := by
              simp only [leaveRoom, hpeer, hprid, if_neg hrid0, hroom,
                if_pos hemp]
            rw [hst]
            constructor
            · intro rid' room' hr'
              have hr2 : upd st.rooms rid none rid' = some room' := hr'
              by_cases hrr : rid' = rid
              · subst hrr
                rw [upd_self] at hr2
                exact Option.noConfusion hr2
              · rw [upd_ne _ _ _ hrr] at hr2
                obtain ⟨h1, h2, h3, h4⟩ := h.1 rid' room' hr2
                refine ⟨h1, h2, h3, ?_⟩
                intro m hm
                obtain ⟨p, hp, hpr⟩ := h4 m hm
                have hms : m ≠ s := by
                  rintro rfl
                  rw [hpeer] at hp
                  injection hp with e
                  rw [← e, hprid] at hpr
                  injection hpr with e2
                  exact hrr e2.symm
                refine ⟨p, ?_, hpr⟩
                show upd st.peers s _ m = some p
                rw [upd_ne _ _ _ hms]; exact hp
            · intro s' p' rid' hp' hr'
              have hp2 : upd st.peers s
                  (some { peer with roomId := none, userId := none,
                                    appId := none }) s' = some p' := hp'
              by_cases hss : s' = s
              · subst hss
                rw [upd_self] at hp2
                injection hp2 with e
                rw [← e] at hr'
                exact Option.noConfusion hr'
              · rw [upd_ne _ _ _ hss] at hp2
                obtain ⟨room'', hroom'', hmem''⟩ := h.2 s' p' rid' hp2 hr'
                by_cases hrr : rid' = rid
                · subst hrr
                  rw [hroom] at hroom''
                  injection hroom'' with e
                  rw [← e] at hmem''
                  have hmm : s' ∈ room.peers.erase s :=
                    (hnd.mem_erase_iff).mpr ⟨hss, hmem''⟩
                  exact absurd (List.length_eq_zero.mp hemp)
                    (List.ne_nil_of_mem hmm)
                · refine ⟨room'', ?_, hmem''⟩
                  show upd st.rooms rid none rid' = some room''
                  rw [upd_ne _ _ _ hrr]; exact hroom''
          · have hst : (leaveRoom st s).2 =
                ⟨upd st.rooms rid
                   (some { room with peers := room.peers.erase s }),
                 upd st.peers s
                   (some { peer with roomId := none, userId := none,
                                     appId := none })⟩ := by
              simp only [leaveRoom, hpeer, hprid, if_neg hrid0, hroom,
                if_neg hemp]
            rw [hst]
            constructor
            · intro rid' room' hr'
              have hr2 : upd st.rooms rid
                  (some { room with peers := room.peers.erase s }) rid' =
                  some room' := hr'
              by_cases hrr : rid' = rid
              · subst hrr
                rw [upd_self] at hr2
                injection hr2 with hr2
                subst hr2
                refine ⟨?_, hnd.erase s, ?_, ?_⟩
                · intro hnil
                  have hnil' : room.peers.erase s = [] := hnil
                  rw [hnil'] at hemp
                  exact hemp rfl
                · exact le_trans (List.erase_sublist s room.peers).length_le
                    hlen
                · intro m hm
                  have hm' : m ≠ s ∧ m ∈ room.peers :=
                    (hnd.mem_erase_iff).mp hm
                  obtain ⟨p, hp, hpr⟩ := hmem m hm'.2
                  refine ⟨p, ?_, hpr⟩
                  show upd st.peers s _ m = some p
                  rw [upd_ne _ _ _ hm'.1]; exact hp
              · rw [upd_ne _ _ _ hrr] at hr2
                obtain ⟨h1, h2, h3, h4⟩ := h.1 rid' room' hr2
                refine ⟨h1, h2, h3, ?_⟩
                intro m hm
                obtain ⟨p, hp, hpr⟩ := h4 m hm
                have hms : m ≠ s := by
                  rintro rfl
                  rw [hpeer] at hp
                  injection hp with e
                  rw [← e, hprid] at hpr
                  injection hpr with e2
                  exact hrr e2.symm
                refine ⟨p, ?_, hpr⟩
                show upd st.peers s _ m = some p
                rw [upd_ne _ _ _ hms]; exact hp
            · intro s' p' rid' hp' hr'
              have hp2 : upd st.peers s
                  (some { peer with roomId := none, userId := none,
                                    appId := none }) s' = some p' := hp'
              by_cases hss : s' = s
              · subst hss
                rw [upd_self] at hp2
                injection hp2 with e
                rw [← e] at hr'
                exact Option.noConfusion hr'
              · rw [upd_ne _ _ _ hss] at hp2
                obtain ⟨room'', hroom'', hmem''⟩ := h.2 s' p' rid' hp2 hr'
                by_cases hrr : rid' = rid
                · subst hrr
                  rw [hroom] at hroom''
                  injection hroom'' with e
                  rw [← e] at hmem''
                  refine ⟨_, upd_self .., ?_⟩
                  exact (hnd.mem_erase_iff).mpr ⟨hss, hmem''⟩
                · refine ⟨room'', ?_, hmem''⟩
                  show upd st.rooms rid _ rid' = some room''
                  rw [upd_ne _ _ _ hrr]; exact hroom''

/-- After a `leaveRoom`, the leaving socket is in no member set of any room —
provided it was not admitted to the room named `""` (which the
truthiness guard of `leaveRoom` skips over). -/
lemma leaveRoom_not_mem (st : RMState) (h : RMInv st) (s : String)
    (hnr : ∀ p, st.peers s = some p → p.roomId ≠ some "") :
    ∀ rid' room', (leaveRoom st s).2.rooms rid' = some room' →
      s ∉ room'.peers := by
  intro rid' room' hr' hmem0
  cases hpeer : st.peers s with
  | none =>
    rw [show (leaveRoom st s).2 = st by simp only [leaveRoom, hpeer]] at hr'
    obtain ⟨p, hp, _⟩ := (h.1 rid' room' hr').2.2.2 s hmem0
    rw [hpeer] at hp
    exact Option.noConfusion hp
  | some peer =>
    cases hprid : peer.roomId with
    | none =>
      rw [show (leaveRoom st s).2 = st by
        simp only [leaveRoom, hpeer, hprid]] at hr'
      obtain ⟨p, hp, hpr⟩ := (h.1 rid' room' hr').2.2.2 s hmem0
      rw [hpeer] at hp
      injection hp with e
      rw [← e, hprid] at hpr
      exact Option.noConfusion hpr
    | some rid =>
      by_cases hrid0 : rid = ""
      · subst hrid0
        exact hnr peer hpeer hprid
      · cases hroom : st.rooms rid with
        | none =>
          rw [show (leaveRoom st s).2 = st by
            simp only [leaveRoom, hpeer, hprid, if_neg hrid0, hroom]] at hr'
          obtain ⟨p, hp, hpr⟩ := (h.1 rid' room' hr').2.2.2 s hmem0
          rw [hpeer] at hp
          injection hp with e
          rw [← e, hprid] at hpr
          injection hpr with e2
          rw [← e2] at hr'
          rw [hroom] at hr'
          exact Option.noConfusion hr'
        | some room =>
          have hnd := (h.1 rid room hroom).2.1
          by_cases hemp : (room.peers.erase s).length = 0
          · rw [show (leaveRoom st s).2 =
                ⟨upd st.rooms rid none,
                 upd st.peers s
                   (some { peer with roomId := none, userId := none,
                                     appId := none })⟩ by
              simp only [leaveRoom, hpeer, hprid, if_neg hrid0, hroom,
                if_pos hemp]] at hr'
            have hr2 : upd st.rooms rid none rid' = some room' := hr'
            by_cases hrr : rid' = rid
            · subst hrr
              rw [upd_self] at hr2
              exact Option.noConfusion hr2
            · rw [upd_ne _ _ _ hrr] at hr2
              obtain ⟨p, hp, hpr⟩ := (h.1 rid' room' hr2).2.2.2 s hmem0
              rw [hpeer] at hp
              injection hp with e
              rw [← e, hprid] at hpr
              injection hpr with e2
              exact hrr e2.symm
          · rw [show (leaveRoom st s).2 =
                ⟨upd st.rooms rid
                   (some { room with peers := room.peers.erase s }),
                 upd st.peers s
                   (some { peer with roomId := none, userId := none,
                                     appId := none })⟩ by
              simp only [leaveRoom, hpeer, hprid, if_neg hrid0, hroom,
                if_neg hemp]] at hr'
            have hr2 : upd st.rooms rid
                (some { room with peers := room.peers.erase s }) rid' =
                some room' := hr'
            by_cases hrr : rid' = rid
            · subst hrr
              rw [upd_self] at hr2
              injection hr2 with e
              rw [← e] at hmem0
              have : s ≠ s ∧ s ∈ room.peers := (hnd.mem_erase_iff).mp hmem0
              exact this.1 rfl
            · rw [upd_ne _ _ _ hrr] at hr2
              obtain ⟨p, hp, hpr⟩ := (h.1 rid' room' hr2).2.2.2 s hmem0
              rw [hpeer] at hp
              injection hp with e
              rw [← e, hprid] at hpr
              injection hpr with e2
              exact hrr e2.symm

lemma inv_removePeer (st : RMState) (h : RMInv st) (s : String)
    (hnr : ∀ p, st.peers s = some p → p.roomId ≠ some "") :
    RMInv (removePeer st s).2 := by
  cases hpeer : st.peers s with
  | none => simpa only [removePeer, hpeer] using h
  | some peer =>
    have hst : (removePeer st s).2 =
        ⟨(leaveRoom st s).2.rooms, upd (leaveRoom st s).2.peers s none⟩ := by
      simp only [removePeer, hpeer]
    rw [hst]
    have h1 : RMInv (leaveRoom st s).2 := inv_leaveRoom st h s
    have h2 := leaveRoom_not_mem st h s hnr
    constructor
    · intro rid' room' hr'
      have hr2 : (leaveRoom st s).2.rooms rid' = some room' := hr'
      obtain ⟨ha, hb, hc, hd⟩ := h1.1 rid' room' hr2
      refine ⟨ha, hb, hc, ?_⟩
      intro m hm
      obtain ⟨p, hp, hpr⟩ := hd m hm
      have hms : m ≠ s := by
        rintro rfl
        exact h2 rid' room' hr2 hm
      refine ⟨p, ?_, hpr⟩
      show upd (leaveRoom st s).2.peers s none m = some p
      rw [upd_ne _ _ _ hms]; exact hp
    · intro s' p' rid' hp' hr'
      have hp2 : upd (leaveRoom st s).2.peers s none s' = some p' := hp'
      by_cases hss : s' = s
      · subst hss
        rw [upd_self] at hp2
        exact Option.noConfusion hp2
      · rw [upd_ne _ _ _ hss] at hp2
        exact h1.2 s' p' rid' hp2 hr'

/-- Under the invariants, a socket id belongs to the member set of at
most one room. -/
lemma inv_unique_room (st : RMState) (h : RMInv st) :
    ∀ s r1 r2 room1 room2, st.rooms r1 = some room1 →
      st.rooms r2 = some room2 → s ∈ room1.peers → s ∈ room2.peers →
      r1 = r2 := by
  intro s r1 r2 room1 room2 h1 h2 m1 m2
  obtain ⟨p1, hp1, hr1⟩ := (h.1 r1 room1 h1).2.2.2 s m1
  obtain ⟨p2, hp2, hr2⟩ := (h.1 r2 room2 h2).2.2.2 s m2
  rw [hp1] at hp2
  injection hp2 with e
  rw [← e] at hr2
  rw [hr1] at hr2
  injection hr2

lemma allMax2_registerPeer (st : RMState) (h : AllMax2 st) (s : String) :
    AllMax2 (registerPeer st s).2 := by
  intro rid room hr
  exact h rid room hr

lemma allMax2_joinRoom (st : RMState) (h : AllMax2 st) (s rid uid aid : String) :
    AllMax2 (joinRoom st s rid uid aid).2 := by
  cases hpeer : st.peers s with
  | none => simpa only [joinRoom, hpeer] using h
  | some peer =>
    cases hprid : peer.roomId with
    | some r0 => simpa only [joinRoom, hpeer, hprid] using h
    | none =>
      cases hroom : st.rooms rid with
      | some room =>
        by_cases hApp : 0 < room.peers.length ∧ room.appId ≠ aid
        · simpa only [joinRoom, hpeer, hprid, hroom, if_pos hApp] using h
        · by_cases hFull : room.maxParticipants ≤ room.peers.length
          · simpa only [joinRoom, hpeer, hprid, hroom, if_neg hApp,
              if_pos hFull] using h
          · have hst : (joinRoom st s rid uid aid).2 =
                ⟨upd st.rooms rid
                   (some { room with peers := setAdd room.peers s }),
                 upd st.peers s
                   (some { peer with roomId := some rid, userId := some uid,
                                     appId := some aid })⟩ := by
              simp only [joinRoom, hpeer, hprid, hroom, if_neg hApp,
                if_neg hFull]
            rw [hst]
            intro rid' room' hr'
            have hr2 : upd st.rooms rid
                (some { room with peers := setAdd room.peers s }) rid' =
                some room' := hr'
            by_cases hrr : rid' = rid
            · subst hrr
              rw [upd_self] at hr2
              injection hr2 with e
              rw [← e]
              exact h _ room hroom
            · rw [upd_ne _ _ _ hrr] at hr2
              exact h rid' room' hr2
      | none =>
        have hst : (joinRoom st s rid uid aid).2 =
            ⟨upd st.rooms rid
               (some { id := rid, appId := aid, peers := [s],
                       maxParticipants := DEFAULT_MAX_PARTICIPANTS }),
             upd st.peers s
               (some { peer with roomId := some rid, userId := some uid,
                                 appId := some aid })⟩ := by
          simp only [joinRoom, hpeer, hprid, hroom]
          norm_num [DEFAULT_MAX_PARTICIPANTS, setAdd, upd_upd]
        rw [hst]
        intro rid' room' hr'
        have hr2 : upd st.rooms rid
            (some { id := rid, appId := aid, peers := [s],
                    maxParticipants := DEFAULT_MAX_PARTICIPANTS }) rid' =
            some room' := hr'
        by_cases hrr : rid' = rid
        · subst hrr
          rw [upd_self] at hr2
          injection hr2 with e
          rw [← e]
          rfl
        · rw [upd_ne _ _ _ hrr] at hr2
          exact h rid' room' hr2

lemma allMax2_leaveRoom (st : RMState) (h : AllMax2 st) (s : String) :
    AllMax2 (leaveRoom st s).2 := by
  cases hpeer : st.peers s with
  | none => simpa only [leaveRoom, hpeer] using h
  | some peer =>
    cases hprid : peer.roomId with
    | none => simpa only [leaveRoom, hpeer, hprid] using h
    | some rid =>
      by_cases hrid0 : rid = ""
      · simpa only [leaveRoom, hpeer, hprid, if_pos hrid0] using h
      · cases hroom : st.rooms rid with
        | none =>
          simpa only [leaveRoom, hpeer, hprid, if_neg hrid0, hroom] using h
        | some room =>
          by_cases hemp : (room.peers.erase s).length = 0
          · rw [show (leaveRoom st s).2 =
                ⟨upd st.rooms rid none,
                 upd st.peers s
                   (some { peer with roomId := none, userId := none,
                                     appId := none })⟩ by
              simp only [leaveRoom, hpeer, hprid, if_neg hrid0, hroom,
                if_pos hemp]]
            intro rid' room' hr'
            have hr2 : upd st.rooms rid none rid' = some room' := hr'
            by_cases hrr : rid' = rid
            · subst hrr
              rw [upd_self] at hr2
              exact Option.noConfusion hr2
            · rw [upd_ne _ _ _ hrr] at hr2
              exact h rid' room' hr2
          · rw [show (leaveRoom st s).2 =
                ⟨upd st.rooms rid
                   (some { room with peers := room.peers.erase s }),
                 upd st.peers s
                   (some { peer with roomId := none, userId := none,
                                     appId := none })⟩ by
              simp only [leaveRoom, hpeer, hprid, if_neg hrid0, hroom,
                if_neg hemp]]
            intro rid' room' hr'
            have hr2 : upd st.rooms rid
                (some { room with peers := room.peers.erase s }) rid' =
                some room' := hr'
            by_cases hrr : rid' = rid
            · subst hrr
              rw [upd_self] at hr2
              injection hr2 with e
              rw [← e]
              exact h _ room hroom
            · rw [upd_ne _ _ _ hrr] at hr2
              exact h rid' room' hr2

lemma allMax2_removePeer (st : RMState) (h : AllMax2 st) (s : String) :
    AllMax2 (removePeer st s).2 := by
  cases hpeer : st.peers s with
  | none => simpa only [removePeer, hpeer] using h
  | some peer =>
    have hst : (removePeer st s).2 =
        ⟨(leaveRoom st s).2.rooms, upd (leaveRoom st s).2.peers s none⟩ := by
      simp only [removePeer, hpeer]
    rw [hst]
    intro rid room hr
    exact allMax2_leaveRoom st h s rid room hr

lemma allMax2_empty : AllMax2 emptyRM := by
  intro rid room hr
  simp [emptyRM] at hr

/-- Registry state used for the duplicate-registration counterexample:
socket `s1` is registered and admitted to room `r1`. -/
def cex1St : RMState :=
  (joinRoom (registerPeer emptyRM "s1").2 "s1" "r1" "u1" "a1").2

/-- Registry state for the empty-room-name counterexample: socket `s2`
is registered and admitted to the room named `""`. -/
def cex2St : RMState :=
  (joinRoom (registerPeer emptyRM "s2").2 "s2" "" "u2" "a2").2

lemma inv_cex1St : RMInv cex1St :=
  inv_joinRoom (registerPeer emptyRM "s1").2
    (inv_registerPeer emptyRM inv_empty "s1" rfl) "s1" "r1" "u1" "a1"

lemma inv_cex2St : RMInv cex2St :=
  inv_joinRoom (registerPeer emptyRM "s2").2
    (inv_registerPeer emptyRM inv_empty "s2" rfl) "s2" "" "u2" "a2"

/-- C1 (amended): `joinRoom` and `leaveRoom` preserve the registry
invariants unconditionally; `removePeer` preserves them provided the
peer is not admitted to the room named `""`; `registerPeer` preserves
them for a fresh connection id.  Under the invariants no connection
appears in the member sets of two different rooms. -/
theorem claim1_registry_invariants (st : RMState) (h : RMInv st) :
    (∀ s rid uid aid, RMInv (joinRoom st s rid uid aid).2)
    ∧ (∀ s, RMInv (leaveRoom st s).2)
    ∧ (∀ s, (∀ p, st.peers s = some p → p.roomId ≠ some "") →
        RMInv (removePeer st s).2)
    ∧ (∀ s, st.peers s = none → RMInv (registerPeer st s).2)
    ∧ (∀ s r1 r2 room1 room2, st.rooms r1 = some room1 →
        st.rooms r2 = some room2 → s ∈ room1.peers → s ∈ room2.peers →
        r1 = r2) :=
  ⟨fun s rid uid aid => inv_joinRoom st h s rid uid aid,
   fun s => inv_leaveRoom st h s,
   fun s hnr => inv_removePeer st h s hnr,
   fun s hf => inv_registerPeer st h s hf,
   inv_unique_room st h⟩

/-- C1 witness: the invariant-preservation theorem applied to a concrete
registration followed by a concrete join. -/
theorem claim1_registry_invariants_witness :
    RMInv (joinRoom (registerPeer emptyRM "sW").2 "sW" "rW" "uW" "aW").2 :=
  (claim1_registry_invariants (registerPeer emptyRM "sW").2
    (inv_registerPeer emptyRM inv_empty "sW" rfl)).1 "sW" "rW" "uW" "aW"

/-- C1 counterexample: re-registering an admitted connection id corrupts
the indices (the socket stays in the room set while its fresh peer record
points nowhere), and `removePeer` on a peer admitted to the room named
`""` deletes the peer record while leaving it in the member set. -/
theorem claim1_counterexample :
    (RMInv cex1St ∧ ¬ RMInv (registerPeer cex1St "s1").2)
    ∧ (RMInv cex2St ∧ ¬ RMInv (removePeer cex2St "s2").2) := by
  refine ⟨⟨inv_cex1St, ?_⟩, ⟨inv_cex2St, ?_⟩⟩
  · intro h
    obtain ⟨p, hp, hpr⟩ :=
      (h.1 "r1" ⟨"r1", "a1", ["s1"], 2⟩ (by decide)).2.2.2 "s1" (by decide)
    have he : (registerPeer cex1St "s1").2.peers "s1" =
        some ⟨"s1", none, none, none⟩ := by decide
    rw [he] at hp
    injection hp with e
    rw [← e] at hpr
    exact Option.noConfusion hpr
  · intro h
    obtain ⟨p, hp, _⟩ :=
      (h.1 "" ⟨"", "a2", ["s2"], 2⟩ (by decide)).2.2.2 "s2" (by decide)
    have he : (removePeer cex2St "s2").2.peers "s2" = none := by decide
    rw [he] at hp
    exact Option.noConfusion hp

/-- C8 (amended): `registerPeer` never fails — it has no error outcome —
and a second call with the same connection id silently replaces the
existing peer record with a fresh unadmitted one. -/
theorem claim8_register_overwrites (st : RMState) (s : String) :
    (registerPeer st s).1 = ⟨s, none, none, none⟩
    ∧ (registerPeer st s).2.peers s = some ⟨s, none, none, none⟩
    ∧ (registerPeer st s).2.rooms = st.rooms :=
  ⟨rfl, upd_self .., rfl⟩

/-- C8 counterexample: registering `s1` again while it is admitted to
`r1` does not fail with `INTERNAL_ERROR` — `registerPeer` cannot fail —
and the admitted peer record is silently replaced by a fresh one. -/
theorem claim8_counterexample :
    cex1St.peers "s1" = some ⟨"s1", some "r1", some "u1", some "a1"⟩
    ∧ (registerPeer cex1St "s1").1 = ⟨"s1", none, none, none⟩
    ∧ (registerPeer cex1St "s1").2.peers "s1" =
        some ⟨"s1", none, none, none⟩ := by
  refine ⟨by decide, rfl, by decide⟩

/-- C6 (amended): when the named room exists with members and its pinned
app id differs from the supplied one, `joinRoom` fails with the message
`Room belongs to different app` under the stable code `INVALID_TOKEN`;
no `TENANT_MISMATCH` code exists in the signaling error-code table. -/
theorem claim6_app_mismatch (st : RMState) (s rid uid aid : String)
    (p : Peer) (room : SigRoom) (hp : st.peers s = some p)
    (hnr : p.roomId = none) (hroom : st.rooms rid = some room)
    (hne : 0 < room.peers.length) (hmm : room.appId ≠ aid) :
    (joinRoom st s rid uid aid).1 =
      .failure "Room belongs to different app" "INVALID_TOKEN"
    ∧ "INVALID_TOKEN" ∈ SignalingErrorCodes
    ∧ "TENANT_MISMATCH" ∉ SignalingErrorCodes := by
  refine ⟨?_, by decide, by decide⟩
  simp only [joinRoom, hp, hnr, hroom, if_pos (And.intro hne hmm)]

/-- Registry state with room `r6` owned by app `appA` holding one member,
plus a freshly registered socket `s6b`. -/
def cex6St : RMState :=
  (registerPeer
    (joinRoom (registerPeer emptyRM "s6a").2 "s6a" "r6" "u6a" "appA").2
    "s6b").2

/-- C6 witness: the amended theorem at a concrete cross-app join. -/
theorem claim6_app_mismatch_witness :
    (joinRoom cex6St "s6b" "r6" "u6b" "appB").1 =
      .failure "Room belongs to different app" "INVALID_TOKEN"
    ∧ "INVALID_TOKEN" ∈ SignalingErrorCodes
    ∧ "TENANT_MISMATCH" ∉ SignalingErrorCodes :=
  claim6_app_mismatch cex6St "s6b" "r6" "u6b" "appB"
    ⟨"s6b", none, none, none⟩ ⟨"r6", "appA", ["s6a"], 2⟩
    (by decide) rfl (by decide) (by decide) (by decide)

/-- C6 counterexample: the concrete cross-app admission fails with code
`INVALID_TOKEN`, not `TENANT_MISMATCH`, and `TENANT_MISMATCH` is not
among the signaling error codes at all. -/
theorem claim6_counterexample :
    (joinRoom cex6St "s6b" "r6" "u6b" "appB").1 =
      .failure "Room belongs to different app" "INVALID_TOKEN"
    ∧ (joinRoom cex6St "s6b" "r6" "u6b" "appB").1 ≠
        .failure "Room belongs to different app" "TENANT_MISMATCH"
    ∧ "TENANT_MISMATCH" ∉ SignalingErrorCodes := by
  decide

/-- C10: every room the presence registry creates is capped at the
constant 2 (`DEFAULT_MAX_PARTICIPANTS`), regardless of the REST-side
room configuration: the cap-2 property is preserved by every registry
operation, rooms never hold more than 2 members, a join into a room
with 2 members of the same app fails with `ROOM_FULL`, and yet the REST
`createRoom` accepts any configured capacity from 1 to 1000 (a value
`joinRoom` — whose arguments include no capacity — never consults). -/
theorem claim10_signaling_cap_two (st : RMState) (h2 : AllMax2 st) :
    (∀ s rid uid aid, AllMax2 (joinRoom st s rid uid aid).2)
    ∧ (∀ s, AllMax2 (registerPeer st s).2)
    ∧ (∀ s, AllMax2 (leaveRoom st s).2)
    ∧ (∀ s, AllMax2 (removePeer st s).2)
    ∧ (RMInv st → ∀ rid room, st.rooms rid = some room →
        room.peers.length ≤ 2)
    ∧ (∀ s rid uid aid p room, st.peers s = some p → p.roomId = none →
        st.rooms rid = some room → room.appId = aid →
        2 ≤ room.peers.length →
        (joinRoom st s rid uid aid).1 = .failure "Room is full" "ROOM_FULL")
    ∧ (∀ appId input genId n, input.maxParticipants = some n →
        1 ≤ n → n ≤ 1000 → jsTrim input.name ≠ "" → appId ≠ "" →
        createRoom appId input genId =
          .ok ⟨genId, appId, jsTrim input.name, n⟩) := by
  refine ⟨fun s rid uid aid => allMax2_joinRoom st h2 s rid uid aid,
    fun s => allMax2_registerPeer st h2 s,
    fun s => allMax2_leaveRoom st h2 s,
    fun s => allMax2_removePeer st h2 s, ?_, ?_, ?_⟩
  · intro hinv rid room hroom
    have := (hinv.1 rid room hroom).2.2.1
    rw [h2 rid room hroom] at this
    exact this
  · intro s rid uid aid p room hp hnr hroom happ hfull
    have hnotApp : ¬(0 < room.peers.length ∧ room.appId ≠ aid) :=
      fun hc => hc.2 happ
    have hle : room.maxParticipants ≤ room.peers.length := by
      rw [h2 rid room hroom]; exact hfull
    simp only [joinRoom, hp, hnr, hroom, if_neg hnotApp, if_pos hle]
  · intro appId input genId n hmp h1 h1000 hname happid
    have hbound : ¬(n < 1 ∨ n > 1000) := by omega
    simp only [createRoom, if_neg hname, if_neg happid, hmp,
      Option.getD_some, if_neg hbound]

/-- Registry state with two same-app members in room `rF` and a third
registered socket. -/
def cex10St : RMState :=
  (registerPeer
    (joinRoom
      (registerPeer
        (joinRoom (registerPeer emptyRM "f1").2 "f1" "rF" "ua" "appF").2
        "f2").2
      "f2" "rF" "ub" "appF").2
    "f3").2

lemma allMax2_cex10St : AllMax2 cex10St :=
  allMax2_registerPeer _
    (allMax2_joinRoom _
      (allMax2_registerPeer _
        (allMax2_joinRoom _
          (allMax2_registerPeer _ allMax2_empty "f1") "f1" "rF" "ua" "appF")
        "f2")
      "f2" "rF" "ub" "appF")
    "f3"

/-- C10 witness: at the concrete two-member room the third same-app join
returns `ROOM_FULL`, and the REST `createRoom` accepts capacity 1000. -/
theorem claim10_signaling_cap_two_witness :
    (joinRoom cex10St "f3" "rF" "uc" "appF").1 =
      .failure "Room is full" "ROOM_FULL"
    ∧ createRoom "appF" ⟨"big room", some 1000⟩ "rid1" =
        .ok ⟨"rid1", "appF", "big room", 1000⟩ := by
  have h := claim10_signaling_cap_two cex10St allMax2_cex10St
  refine ⟨?_, ?_⟩
  · exact h.2.2.2.2.2.1 "f3" "rF" "uc" "appF" ⟨"f3", none, none, none⟩
      ⟨"rF", "appF", ["f1", "f2"], 2⟩ (by decide) rfl (by decide) (by decide)
      (by decide)
  · exact h.2.2.2.2.2.2 "appF" ⟨"big room", some 1000⟩ "rid1" 1000
      rfl (by decide) (by decide) (by decide) (by decide)

/-- C3: a sender admitted to a room (truthy `roomId` and `userId`, per
the test used by the code) has its `offer`/`answer`/`ice` frames relayed with
identical payload to every other member of its room, stamped with its
user id; when it is the only member the frame is silently dropped; a
sender that is not admitted gets a `NOT_IN_ROOM` error and nothing is
relayed.  The state is unchanged in every case. -/
theorem claim3_negotiation_relay (st : RMState) (s : String) (sdp : Sdp)
    (cand : IceCandidate) :
    (∀ p rid u room, st.peers s = some p → p.roomId = some rid →
      p.userId = some u → rid ≠ "" → u ≠ "" → st.rooms rid = some room →
      (handleOffer st s sdp =
        (st, (room.peers.filter (fun m => m ≠ s)).map
          (fun m => .send m (.offer sdp u)))
      ∧ handleAnswer st s sdp =
        (st, (room.peers.filter (fun m => m ≠ s)).map
          (fun m => .send m (.answer sdp u)))
      ∧ handleIce st s cand =
        (st, (room.peers.filter (fun m => m ≠ s)).map
          (fun m => .send m (.ice cand u)))
      ∧ (room.peers = [s] →
          handleOffer st s sdp = (st, [])
          ∧ handleAnswer st s sdp = (st, [])
          ∧ handleIce st s cand = (st, []))))
    ∧ (∀ p, st.peers s = some p →
        ¬(jsTruthy p.roomId ∧ jsTruthy p.userId) →
        handleOffer st s sdp =
          (st, [.send s (.error "NOT_IN_ROOM" "Must join a room first")])
        ∧ handleAnswer st s sdp =
          (st, [.send s (.error "NOT_IN_ROOM" "Must join a room first")])
        ∧ handleIce st s cand =
          (st, [.send s (.error "NOT_IN_ROOM" "Must join a room first")]))
    ∧ (st.peers s = none →
        handleOffer st s sdp =
          (st, [.send s (.error "NOT_IN_ROOM" "Must join a room first")])
        ∧ handleAnswer st s sdp =
          (st, [.send s (.error "NOT_IN_ROOM" "Must join a room first")])
        ∧ handleIce st s cand =
          (st, [.send s (.error "NOT_IN_ROOM" "Must join a room first")])) := by
  refine ⟨?_, ?_, ?_⟩
  · intro p rid u room hp hprid huid hrid0 hu0 hroom
    have hgrp : getRoomPeers st s = room.peers.filter (fun m => m ≠ s) := by
      simp only [getRoomPeers, hp, hprid, if_neg hrid0, hroom]
    have ho : handleOffer st s sdp =
        (st, (room.peers.filter (fun m => m ≠ s)).map
          (fun m => .send m (.offer sdp u))) := by
      simp [handleOffer, hp, hprid, huid, jsTruthy, hrid0, hu0, hgrp]
    have ha : handleAnswer st s sdp =
        (st, (room.peers.filter (fun m => m ≠ s)).map
          (fun m => .send m (.answer sdp u))) := by
      simp [handleAnswer, hp, hprid, huid, jsTruthy, hrid0, hu0, hgrp]
    have hi : handleIce st s cand =
        (st, (room.peers.filter (fun m => m ≠ s)).map
          (fun m => .send m (.ice cand u))) := by
      simp [handleIce, hp, hprid, huid, jsTruthy, hrid0, hu0, hgrp]
    refine ⟨ho, ha, hi, ?_⟩
    intro hsingle
    rw [ho, ha, hi, hsingle]
    simp
  · intro p hp hnt
    refine ⟨?_, ?_, ?_⟩
    · simp only [handleOffer, hp, if_neg hnt]
    · simp only [handleAnswer, hp, if_neg hnt]
    · simp only [handleIce, hp, if_neg hnt]
  · intro hnone
    refine ⟨?_, ?_, ?_⟩
    · simp only [handleOffer, hnone]
    · simp only [handleAnswer, hnone]
    · simp only [handleIce, hnone]

/-- Registry state with `alice` (socket `sA`) and `bob` (socket `sB`)
admitted to room `r1` under app `app1`. -/
def demoSt : RMState :=
  (joinRoom
    (registerPeer
      (joinRoom (registerPeer emptyRM "sA").2 "sA" "r1" "alice" "app1").2
      "sB").2
    "sB" "r1" "bob" "app1").2

/-- An opaque SDP payload for the relay witnesses. -/
def demoSdp : Sdp := ⟨"offer", "v=0 demo-sdp"⟩

/-- An opaque ICE candidate for the relay witnesses. -/
def demoCand : IceCandidate := ⟨some "candidate:1", some "0", some 0⟩

/-- C3 witness: a concrete offer from `alice` is relayed exactly to
`bob` with the identical payload and `fromUserId` `alice`. -/
theorem claim3_negotiation_relay_witness :
    (handleOffer demoSt "sA" demoSdp).2 =
      [.send "sB" (.offer demoSdp "alice")] := by
  have h := ((claim3_negotiation_relay demoSt "sA" demoSdp demoCand).1
    ⟨"sA", some "r1", some "alice", some "app1"⟩ "r1" "alice"
    ⟨"r1", "app1", ["sA", "sB"], 2⟩ (by decide) rfl rfl (by decide)
    (by decide) (by decide)).1
  rw [h]
  decide

/-- C4: on a successful join (valid unexpired token whose claimed room
matches, registered peer not yet in a room, and — when the room exists —
matching app and free capacity), `handleJoin` first sends the new peer a
`joined` frame carrying the room id, the user id from the grant, and the
user ids present *before* the admission, and then sends `peer-joined`
with `isInitiator` true to exactly the members that were already in the
room — never to the new peer. -/
theorem claim4_join_messaging (st : RMState) (hinv : RMInv st)
    (s roomId : String) (tok : Jwt) (secret : String) (now : Nat) (p : Peer)
    (hkey : tok.key = secret) (hexp : now < tok.payload.exp)
    (hrid : tok.payload.roomId = roomId) (hrid0 : roomId ≠ "")
    (hp : st.peers s = some p) (hnr : p.roomId = none) :
    (st.rooms roomId = none →
      handleJoin st s roomId tok secret now =
        ((joinRoom st s roomId tok.payload.userId tok.payload.appId).2,
         [.send s (.joined roomId tok.payload.userId [])]))
    ∧ (∀ room, st.rooms roomId = some room →
        room.appId = tok.payload.appId →
        room.peers.length < room.maxParticipants →
        handleJoin st s roomId tok secret now =
          ((joinRoom st s roomId tok.payload.userId tok.payload.appId).2,
           .send s (.joined roomId tok.payload.userId
             (getRoomUserIds st roomId)) ::
             room.peers.map
               (fun m => .send m (.peerJoined tok.payload.userId true)))) := by
  have hver : jwtVerify tok secret now = .ok tok.payload := by
    unfold jwtVerify
    rw [if_neg (fun hh => hh hkey), if_neg (Nat.not_le.mpr hexp)]
  have hridn : ¬(tok.payload.roomId ≠ roomId) := fun hh => hh hrid
  constructor
  · intro hroomN
    have hjoin : joinRoom st s roomId tok.payload.userId tok.payload.appId =
        (.success,
         ⟨upd st.rooms roomId
            (some { id := roomId, appId := tok.payload.appId, peers := [s],
                    maxParticipants := DEFAULT_MAX_PARTICIPANTS }),
          upd st.peers s
            (some { p with roomId := some roomId,
                           userId := some tok.payload.userId,
                           appId := some tok.payload.appId })⟩) := by
      simp only [joinRoom, hp, hnr, hroomN]
      norm_num [DEFAULT_MAX_PARTICIPANTS, setAdd, upd_upd]
    have hex : getRoomUserIds st roomId = [] := by
      simp only [getRoomUserIds, hroomN]
    have hgrp : getRoomPeers
        (⟨upd st.rooms roomId
            (some { id := roomId, appId := tok.payload.appId, peers := [s],
                    maxParticipants := DEFAULT_MAX_PARTICIPANTS }),
          upd st.peers s
            (some { p with roomId := some roomId,
                           userId := some tok.payload.userId,
                           appId := some tok.payload.appId })⟩ : RMState)
        s = [] := by
      simp [getRoomPeers, upd, hrid0]
    simp only [handleJoin, hver, if_neg hridn, hjoin, hex, hgrp]
    simp
  · intro room hroomS happ hlt
    have hsno : s ∉ room.peers := by
      intro hmem
      obtain ⟨q, hq, hqr⟩ := (hinv.1 roomId room hroomS).2.2.2 s hmem
      rw [hp] at hq
      injection hq with e
      rw [← e, hnr] at hqr
      exact Option.noConfusion hqr
    have hc1 : ¬(0 < room.peers.length ∧ room.appId ≠ tok.payload.appId) :=
      fun hc => hc.2 happ
    have hc2 : ¬(room.maxParticipants ≤ room.peers.length) :=
      Nat.not_le.mpr hlt
    have hjoin : joinRoom st s roomId tok.payload.userId tok.payload.appId =
        (.success,
         ⟨upd st.rooms roomId
            (some { room with peers := setAdd room.peers s }),
          upd st.peers s
            (some { p with roomId := some roomId,
                           userId := some tok.payload.userId,
                           appId := some tok.payload.appId })⟩) := by
      simp only [joinRoom, hp, hnr, hroomS, if_neg hc1, if_neg hc2]
    have hfil : room.peers.filter (fun m => decide (m ≠ s)) = room.peers := by
      refine List.filter_eq_self.mpr ?_
      intro a ha
      simp only [decide_eq_true_eq]
      exact fun e => hsno (e ▸ ha)
    have hgrp : getRoomPeers
        (⟨upd st.rooms roomId
            (some { room with peers := setAdd room.peers s }),
          upd st.peers s
            (some { p with roomId := some roomId,
                           userId := some tok.payload.userId,
                           appId := some tok.payload.appId })⟩ : RMState)
        s = room.peers := by
      simp only [getRoomPeers, upd_self, if_neg hrid0,
        setAdd_not_mem hsno]
      rw [List.filter_append, hfil]
      simp
    simp only [handleJoin, hver, if_neg hridn, hjoin, hgrp]

/-- Registry state with `alice` admitted to `r1` and socket `sB`
registered but not yet joined. -/
def preBobSt : RMState :=
  (registerPeer
    (joinRoom (registerPeer emptyRM "sA").2 "sA" "r1" "alice" "app1").2
    "sB").2

/-- A valid grant for `bob` in room `r1` under app `app1`. -/
def tokBob : Jwt :=
  ⟨⟨"j2", "app1", "r1", "bob", "participant", 0, 1000⟩, "sec"⟩

lemma inv_preBobSt : RMInv preBobSt :=
  inv_registerPeer _
    (inv_joinRoom _ (inv_registerPeer emptyRM inv_empty "sA" rfl)
      "sA" "r1" "alice" "app1")
    "sB" (by decide)

/-- C4 witness: Bob joining the room of Alice receives
`joined(r1, bob, [alice])` first, and Alice alone receives
`peer-joined(bob, isInitiator := true)`. -/
theorem claim4_join_messaging_witness :
    (handleJoin preBobSt "sB" "r1" tokBob "sec" 10).2 =
      [.send "sB" (.joined "r1" "bob" ["alice"]),
       .send "sA" (.peerJoined "bob" true)] := by
  have h := (claim4_join_messaging preBobSt inv_preBobSt "sB" "r1" tokBob
    "sec" 10 ⟨"sB", none, none, none⟩ rfl (by decide) rfl (by decide)
    (by decide) rfl).2 ⟨"r1", "app1", ["sA"], 2⟩ (by decide) rfl (by decide)
  rw [congrArg Prod.snd h]
  decide

lemma handleOffer_sends_only (st : RMState) (s : String) (sdp : Sdp) :
    ∀ a ∈ (handleOffer st s sdp).2, ∃ d m, a = SigAction.send d m := by
  intro a ha
  unfold handleOffer at ha
  split at ha
  · split at ha
    · rcases List.mem_map.mp ha with ⟨pid, _, rfl⟩
      exact ⟨_, _, rfl⟩
    · simp at ha
      subst ha
      exact ⟨_, _, rfl⟩
  · simp at ha
    subst ha
    exact ⟨_, _, rfl⟩

lemma handleAnswer_sends_only (st : RMState) (s : String) (sdp : Sdp) :
    ∀ a ∈ (handleAnswer st s sdp).2, ∃ d m, a = SigAction.send d m := by
  intro a ha
  unfold handleAnswer at ha
  split at ha
  · split at ha
    · rcases List.mem_map.mp ha with ⟨pid, _, rfl⟩
      exact ⟨_, _, rfl⟩
    · simp at ha
      subst ha
      exact ⟨_, _, rfl⟩
  · simp at ha
    subst ha
    exact ⟨_, _, rfl⟩

lemma handleIce_sends_only (st : RMState) (s : String) (c : IceCandidate) :
    ∀ a ∈ (handleIce st s c).2, ∃ d m, a = SigAction.send d m := by
  intro a ha
  unfold handleIce at ha
  split at ha
  · split at ha
    · rcases List.mem_map.mp ha with ⟨pid, _, rfl⟩
      exact ⟨_, _, rfl⟩
    · simp at ha
      subst ha
      exact ⟨_, _, rfl⟩
  · simp at ha
    subst ha
    exact ⟨_, _, rfl⟩

lemma handleLeave_sends_only (st : RMState) (s : String) :
    ∀ a ∈ (handleLeave st s).2, ∃ d m, a = SigAction.send d m := by
  intro a ha
  unfold handleLeave at ha
  split at ha
  · simp at ha
  · split at ha
    · split at ha
      · rcases List.mem_map.mp ha with ⟨pid, _, rfl⟩
        exact ⟨_, _, rfl⟩
      · simp at ha
    · simp at ha

lemma handleJoin_sends_only (st : RMState) (s roomId : String) (tok : Jwt)
    (secret : String) (now : Nat) :
    ∀ a ∈ (handleJoin st s roomId tok secret now).2,
      ∃ d m, a = SigAction.send d m := by
  intro a ha
  unfold handleJoin at ha
  split at ha
  · simp at ha
    subst ha
    exact ⟨_, _, rfl⟩
  · simp at ha
    subst ha
    exact ⟨_, _, rfl⟩
  · split at ha
    · simp at ha
      subst ha
      exact ⟨_, _, rfl⟩
    · split at ha
      · simp at ha
        subst ha
        exact ⟨_, _, rfl⟩
      · rcases List.mem_cons.mp ha with rfl | hmem
        · exact ⟨_, _, rfl⟩
        · rcases List.mem_map.mp hmem with ⟨pid, _, rfl⟩
          exact ⟨_, _, rfl⟩

/-- C5 (amended): the signaling endpoint never closes a transport after
an error frame — every action a message handler emits is a `send`, for
fatal codes included — and in particular a third client joining a full
two-seat room is answered with a `ROOM_FULL` error frame only, the
connection left open. -/
theorem claim5_fatal_errors_no_close :
    (∀ st s msg secret now, ∀ a ∈ (handleMessage st s msg secret now).2,
      ∃ d m, a = SigAction.send d m)
    ∧ (∀ st s roomId tok secret now p room,
        st.peers s = some p → p.roomId = none → tok.key = secret →
        now < tok.payload.exp → tok.payload.roomId = roomId →
        st.rooms roomId = some room → room.appId = tok.payload.appId →
        room.maxParticipants ≤ room.peers.length →
        handleMessage st s (.join roomId tok) secret now =
          (st, [.send s (.error "ROOM_FULL" "Room is full")])) := by
  constructor
  · intro st s msg secret now a ha
    cases msg with
    | invalid =>
      simp only [handleMessage] at ha
      simp at ha
      subst ha
      exact ⟨_, _, rfl⟩
    | join roomId tok => exact handleJoin_sends_only st s roomId tok secret now a ha
    | offer sdp => exact handleOffer_sends_only st s sdp a ha
    | answer sdp => exact handleAnswer_sends_only st s sdp a ha
    | ice c => exact handleIce_sends_only st s c a ha
    | leave => exact handleLeave_sends_only st s a ha
  · intro st s roomId tok secret now p room hp hnr hkey hexp hrid hroom
      happ hfull
    have hver : jwtVerify tok secret now = .ok tok.payload := by
      unfold jwtVerify
      rw [if_neg (fun hh => hh hkey), if_neg (Nat.not_le.mpr hexp)]
    have hridn : ¬(tok.payload.roomId ≠ roomId) := fun hh => hh hrid
    have hc1 : ¬(0 < room.peers.length ∧ room.appId ≠ tok.payload.appId) :=
      fun hc => hc.2 happ
    have hjoin : joinRoom st s roomId tok.payload.userId tok.payload.appId =
        (.failure "Room is full" "ROOM_FULL", st) := by
      simp only [joinRoom, hp, hnr, hroom, if_neg hc1, if_pos hfull]
    simp only [handleMessage, handleJoin, hver, if_neg hridn, hjoin]

/-- The two-member room `r1` (`alice`, `bob`) plus the registered third
socket `sC`. -/
def fullSt : RMState := (registerPeer demoSt "sC").2

/-- A valid grant for `carol` in the already-full room `r1`. -/
def tokCarol : Jwt :=
  ⟨⟨"j3", "app1", "r1", "carol", "participant", 0, 1000⟩, "sec"⟩

/-- C5 witness: the amended theorem at the concrete third join of Carol. -/
theorem claim5_fatal_errors_no_close_witness :
    handleMessage fullSt "sC" (.join "r1" tokCarol) "sec" 10 =
      (fullSt, [.send "sC" (.error "ROOM_FULL" "Room is full")]) :=
  claim5_fatal_errors_no_close.2 fullSt "sC" "r1" tokCarol "sec" 10
    ⟨"sC", none, none, none⟩ ⟨"r1", "app1", ["sA", "sB"], 2⟩
    (by decide) rfl rfl (by decide) rfl (by decide) rfl (by decide)

/-- C5 counterexample: the third join of Carol into the full room yields the
fatal `ROOM_FULL` error frame, yet her transport is not closed — the
output contains no close action. -/
theorem claim5_counterexample :
    (handleMessage fullSt "sC" (.join "r1" tokCarol) "sec" 10).2 =
      [.send "sC" (.error "ROOM_FULL" "Room is full")]
    ∧ SigAction.close "sC" ∉
        (handleMessage fullSt "sC" (.join "r1" tokCarol) "sec" 10).2 := by
  decide

instance exceptDecEq {e a : Type} [DecidableEq e] [DecidableEq a] :
    DecidableEq (Except e a) := fun x y =>
  match x, y with
  | .ok v, .ok w =>
    if h : v = w then .isTrue (by rw [h])
    else .isFalse (fun hh => h (Except.ok.inj hh))
  | .error v, .error w =>
    if h : v = w then .isTrue (by rw [h])
    else .isFalse (fun hh => h (Except.error.inj hh))
  | .ok _, .error _ => .isFalse (fun hh => Except.noConfusion hh)
  | .error _, .ok _ => .isFalse (fun hh => Except.noConfusion hh)

/-- C2: for a valid claim set (nonempty app, room, trimmed user id, one
of the three roles), an existing room owned by the app, and a
well-formed ttl, verifying the token issued by `createToken` at any
time strictly before its `exp` round-trips the issued claim object
minus `iat`/`exp`. -/
theorem claim2_token_round_trip (appId roomId : String)
    (input : CreateTokenInput) (db : String → Option ApiRoom)
    (room : ApiRoom) (secret jti : String) (now secs at2 : Nat)
    (ha : appId ≠ "") (hr : roomId ≠ "") (hu : jsTrim input.userId ≠ "")
    (hrole : input.role ∈ VALID_ROLES) (hdb : db roomId = some room)
    (happ : room.appId = appId)
    (hparse : parseExpiresIn (jsOrDefault input.expiresIn "1h") = .ok secs)
    (hbefore : at2 < now + secs) :
    ∃ tok, createToken appId roomId input db secret now jti =
        .ok (tok, now + secs)
      ∧ verifyToken tok secret at2 =
        .ok ⟨jti, appId, roomId, jsTrim input.userId, input.role⟩ := by
  refine ⟨⟨⟨jti, appId, roomId, jsTrim input.userId, input.role, now,
    now + secs⟩, secret⟩, ?_, ?_⟩
  · simp only [createToken, if_neg ha, if_neg hr, if_neg hu,
      if_neg (show ¬input.role ∉ VALID_ROLES from fun hh => hh hrole),
      hdb, if_neg (show ¬room.appId ≠ appId from fun hh => hh happ),
      hparse]
  · unfold verifyToken jwtVerify
    rw [if_neg (fun hh => hh rfl), if_neg (Nat.not_le.mpr hbefore)]

/-- A one-room database for the token witnesses. -/
def dbX : String → Option ApiRoom :=
  fun r => if r = "roomX" then some ⟨"roomX", "appX", "Room X", 2⟩ else none

/-- C2 witness: a concrete issue-then-verify round trip for `alice`
with ttl `1h`, verified 200 seconds after issuance. -/
theorem claim2_token_round_trip_witness :
    ∃ tok, createToken "appX" "roomX" ⟨"alice", "host", some "1h"⟩ dbX
        "sec" 100 "jt1" = .ok (tok, 100 + 3600)
      ∧ verifyToken tok "sec" 300 =
        .ok ⟨"jt1", "appX", "roomX", "alice", "host"⟩ :=
  claim2_token_round_trip "appX" "roomX" ⟨"alice", "host", some "1h"⟩ dbX
    ⟨"roomX", "appX", "Room X", 2⟩ "sec" "jt1" 100 3600 300
    (by decide) (by decide) (by decide) (by decide) (by decide) rfl
    (by decide) (by decide)

/-- C7 (amended): token verification checks only the signature and the
expiry — it performs no claim-shape validation.  Any token signed with
the right secret and not yet expired has its five claim fields returned
as valid by `verifyToken`, whatever their shape; the signaling join
verification step of the join handler (`jwt.verify`) likewise accepts it. -/
theorem claim7_no_shape_validation (t : Jwt) (secret : String) (now : Nat)
    (hk : t.key = secret) (he : now < t.payload.exp) :
    verifyToken t secret now =
      .ok ⟨t.payload.jti, t.payload.appId, t.payload.roomId,
           t.payload.userId, t.payload.role⟩
    ∧ jwtVerify t secret now = .ok t.payload := by
  have hv : jwtVerify t secret now = .ok t.payload := by
    unfold jwtVerify
    rw [if_neg (fun hh => hh hk), if_neg (Nat.not_le.mpr he)]
  constructor
  · unfold verifyToken
    rw [hv]
  · exact hv

/-- A signature-valid, unexpired token with malformed claims: empty
user id and the unknown role `admin`. -/
def badTok : Jwt := ⟨⟨"j1", "app1", "room1", "", "admin", 0, 100⟩, "sec"⟩

/-- C7 witness: the amended theorem at the malformed concrete token. -/
theorem claim7_no_shape_validation_witness :
    verifyToken badTok "sec" 99 =
      .ok ⟨"j1", "app1", "room1", "", "admin"⟩
    ∧ jwtVerify badTok "sec" 99 = .ok badTok.payload :=
  claim7_no_shape_validation badTok "sec" 99 rfl (by decide)

/-- C7 counterexample: the malformed token (role `admin` is not a valid
role, user id empty) is accepted: `verifyToken` returns its claims as
valid rather than reporting invalid, and the join handler admits the
bearer into the room, answering with a `joined` frame. -/
theorem claim7_counterexample :
    ("admin" ∉ VALID_ROLES)
    ∧ badTok.payload.userId = ""
    ∧ verifyToken badTok "sec" 50 =
        .ok ⟨"j1", "app1", "room1", "", "admin"⟩
    ∧ (handleJoin (registerPeer emptyRM "sE").2 "sE" "room1" badTok
        "sec" 50).2 =
      [.send "sE" (.joined "room1" "" [])] := by
  decide

/-- C9: grant issuance (schema validation followed by `createToken`)
rejects a user id that is empty or longer than 255 characters with a
validation error; no token is produced. -/
theorem claim9_userid_bounds (appId roomId : String)
    (input : CreateTokenInput) (db : String → Option ApiRoom)
    (secret jti : String) (now : Nat)
    (h : input.userId = "" ∨ 255 < input.userId.length) :
    issueGrantRequest appId roomId input db secret now jti =
      .error (.validation "body must match schema") := by
  have hv : ¬(validCreateTokenBody input = true) := by
    rcases h with h | h
    · simp [validCreateTokenBody, h]
    · simp only [validCreateTokenBody, Bool.and_eq_true, decide_eq_true_eq]
      rintro ⟨⟨⟨-, h255⟩, -⟩, -⟩
      omega
  simp only [issueGrantRequest, if_neg hv]

/-- A 256-character user id. -/
def longId : String := String.mk (List.replicate 256 'a')

set_option maxRecDepth 8192 in
/-- C9 witness: the bounds theorem at a 256-character and at an empty
user id. -/
theorem claim9_userid_bounds_witness :
    issueGrantRequest "appX" "roomX" ⟨longId, "host", none⟩ dbX "sec" 0 "j" =
      .error (.validation "body must match schema")
    ∧ issueGrantRequest "appX" "roomX" ⟨"", "host", none⟩ dbX "sec" 0 "j" =
      .error (.validation "body must match schema") :=
  ⟨claim9_userid_bounds "appX" "roomX" ⟨longId, "host", none⟩ dbX "sec" "j" 0
    (Or.inr (by decide)),
   claim9_userid_bounds "appX" "roomX" ⟨"", "host", none⟩ dbX "sec" "j" 0
    (Or.inl rfl)⟩
